import Mathlib

/-
Verification development for the boss respawn-tracking bot (src/boss_bot.py).

Modelling conventions (shallow embedding):
* `datetime` values are whole seconds since an arbitrary epoch, as `Nat`;
  durations and differences are `Int` seconds.  The claims under study only
  involve whole-second arithmetic, and Python's datetime arithmetic on
  whole-second values is exact.
* Python's `//` on integers is floor division, embedded as `Int.fdiv`.
* An ISO-8601 timestamp string is embedded as its list of base-10 digit
  values (`List Nat`): `datetime.isoformat` and `datetime.fromisoformat`
  are an exact, injective encode/decode pair on datetimes, embedded here by
  `dt_to_iso` / `iso_to_dt`.  A list with a non-digit entry (or the empty
  list, standing for a string `fromisoformat` rejects) models an
  unparseable string.
* A record is the fixed-schema form of the Python per-boss dict: a key the
  code removes with `pop` is an optional field set to `none` (or a boolean
  field set to `false`); `rec.get(k)` truthiness tests become the matching
  `none` / `= 0` / `= false` tests, spelled out at each use site.
* Discord I/O (channel lookup, `channel.send`) is an oracle environment
  `CheckEnv`: a send that raises is a send whose oracle returns `false`.
-/

/-- Early-reminder window in minutes: `EARLY_MINUTES = int(os.getenv("EARLY_MINUTES", "3"))`,
modelled at its default value 3. -/
def EARLY_MINUTES : Int := 3

/-- Anti-duplicate grace in seconds: `ANTI_DUP_GRACE_SEC = int(os.getenv("ANTI_DUP_GRACE_SEC", "180"))`,
modelled at its default value 180. -/
def ANTI_DUP_GRACE_SEC : Int := 180

/-- The default boss catalog `DEFAULT_BOSSES`, in source order: period in minutes
paired with the boss names having that default period. -/
def DEFAULT_BOSSES : List (Int × List String) :=
  [(120, ["02", "03"]),
   (180, ["05", "06", "08", "10"]),
   (240, ["12", "14", "70-2F"]),
   (300, ["17", "18"]),
   (360, ["19", "21", "80-3F"]),
   (480, ["22", "26", "29", "j70-2F"]),
   (600, ["30", "31", "32", "40"]),
   (720, ["B3", "33", "34", "37", "j80-3F"]),
   (840, ["41"])]

/-- Embedding of `datetime.isoformat`: the textual form of a timestamp,
as the little-endian base-10 digit list of its epoch-second value
(with `[0]` for zero, so the encoding is never the empty string). -/
def dt_to_iso (t : Nat) : List Nat :=
  if t = 0 then [0] else Nat.digits 10 t

/-- Embedding of `datetime.fromisoformat`: parses a digit list back to a
timestamp, returning `none` (the Python call raises) when the list is empty
or contains a non-digit entry. -/
def iso_to_dt (s : List Nat) : Option Nat :=
  if s ≠ [] ∧ s.all (fun d => d < 10) then some (Nat.ofDigits 10 s) else none

/-- Fixed-schema form of the per-boss record dict.  `τ` is the type of the
`last_kill` field: `Nat` (a datetime) in memory, `List Nat` (an ISO string)
in the persisted snapshot.  An absent dict key is `none` / `false`. -/
structure Record (τ : Type) where
  period : Option Int := none
  last_kill : Option τ := none
  user : Option String := none
  killed_by : Option String := none
  channel : Option Int := none
  reminded : Bool := false
  carded : Bool := false
  card_channel_id : Option Int := none
  card_msg_id : Option Int := none
  manual_set_at : Option (List Nat) := none
deriving DecidableEq

/-- In-memory record: `last_kill` is a datetime. -/
abbrev Rec := Record Nat

/-- Persisted record: `last_kill` is an ISO string (or null/absent). -/
abbrev PRec := Record (List Nat)

/-- The in-memory store `records`: an insertion-ordered mapping from boss
name to record. -/
abbrev Store := List (String × Rec)

/-- The persisted snapshot mapping written to records.json. -/
abbrev PStore := List (String × PRec)

/-- `safe_period(p, fallback=120)`: `int(p or 120)` when that is positive,
else 120.  `p` is the (possibly absent) value of the "period" key. -/
def safe_period (p : Option Int) : Int :=
  match p with
  | none => 120
  | some n => if n = 0 then 120 else if 0 < n then n else 120

/-- Zero-padded two-digit rendering, for Python's `{m:02d}`. -/
def pad2 (n : Int) : String :=
  if n < 10 then "0" ++ toString n else toString n

/-- `pretty_compact(td)`: compact duration text from a span in seconds. -/
def pretty_compact (tdSeconds : Int) : String :=
  if tdSeconds ≤ 0 then "0分"
  else
    let m := tdSeconds / 60
    let h := m / 60
    let m2 := m % 60
    if h ≠ 0 then toString h ++ "時" ++ pad2 m2 ++ "分" else toString m2 ++ "分"

/-- The four phase symbols returned by `status_of`. -/
inductive Phase where
  | WAIT
  | SOON
  | SPAWNED
  | MISSED
deriving DecidableEq

/-- The tuple `status_of` returns: symbol, display text, predicted respawn
time, missed-cycle count, overrun minutes. -/
structure Status where
  sym : Phase
  text : String
  respawn : Option Int
  miss_times : Option Int
  over_minutes : Option Int
deriving DecidableEq

/-- The state classifier `status_of(period, last, now)`.  `period` is in
minutes; `last` and `now` are datetimes (epoch seconds).  Every caller in
the source passes `safe_period(...)`, so `period` is positive there. -/
def status_of (period : Int) (last : Option Nat) (now : Nat) : Status :=
  match last with
  | none => ⟨Phase.WAIT, "未設定", none, none, none⟩
  | some lastT =>
    let respawn : Int := (lastT : Int) + period * 60
    let remain : Int := respawn - (now : Int)
    if remain ≤ 0 then
      let over_secs : Int := -remain
      let miss_times : Int := Int.fdiv over_secs (period * 60)
      if miss_times ≥ 1 then
        ⟨Phase.MISSED, "已超過 " ++ toString miss_times ++ " 輪",
         some respawn, some miss_times, some (Int.fdiv over_secs 60)⟩
      else
        ⟨Phase.SPAWNED, "0分", some respawn, some 0, some 0⟩
    else if remain ≤ EARLY_MINUTES * 60 then
      ⟨Phase.SOON, pretty_compact remain, some respawn, some 0, none⟩
    else
      ⟨Phase.WAIT, pretty_compact remain, some respawn, some 0, none⟩

/-- Serialisation of one record by `save_records`: a `last_kill` datetime is
rendered with `isoformat`; every other field is written as-is
(`manual_set_at` is already stored as a string). -/
def saveRec (r : Rec) : PRec :=
  { period := r.period, last_kill := r.last_kill.map dt_to_iso,
    user := r.user, killed_by := r.killed_by, channel := r.channel,
    reminded := r.reminded, carded := r.carded,
    card_channel_id := r.card_channel_id, card_msg_id := r.card_msg_id,
    manual_set_at := r.manual_set_at }

/-- `save_records()`: serialises the whole mapping (the JSON text layer,
which round-trips the serialised values exactly, is left abstract). -/
def save_records (st : Store) : PStore :=
  st.map (fun p => (p.1, saveRec p.2))

/-- Deserialisation of one record by `load_records`: a string `last_kill`
is parsed with `fromisoformat`, and set to `None` when parsing raises;
a null/absent `last_kill` stays unset; every other field is kept as-is. -/
def loadRec (p : PRec) : Rec :=
  { period := p.period, last_kill := p.last_kill.bind iso_to_dt,
    user := p.user, killed_by := p.killed_by, channel := p.channel,
    reminded := p.reminded, carded := p.carded,
    card_channel_id := p.card_channel_id, card_msg_id := p.card_msg_id,
    manual_set_at := p.manual_set_at }

/-- `load_records()` restoring an existing snapshot: every entry is loaded,
entry by entry, with `loadRec`. -/
def load_records (ps : PStore) : Store :=
  ps.map (fun q => (q.1, loadRec q.2))

/-- First default-catalog period whose name list contains `b`, mirroring
the lookup loop in `ensure_boss`. -/
def default_period (b : String) : Option Int :=
  (DEFAULT_BOSSES.find? (fun pr => pr.2.contains b)).map (fun pr => pr.1)

/-- `ensure_boss(boss, period_hint)`: trims the name; if absent, inserts a
fresh record whose period is the hint when given, else the catalog default,
else 120 (`per = per or 120` also maps a zero hint to 120).  Returns the
trimmed key and the updated store. -/
def ensure_boss (boss : String) (period_hint : Option Int) (st : Store) :
    String × Store :=
  let b := boss.trim
  if (st.lookup b).isSome then (b, st)
  else
    let per : Option Int :=
      match period_hint with
      | some p => some p
      | none => default_period b
    let per2 : Int :=
      match per with
      | none => 120
      | some 0 => 120
      | some p => p
    (b, st ++ [(b, { period := some per2, last_kill := none, channel := none })])

/-- The record mutation performed by the card button `BossKillView.btn_kill`:
sets `last_kill` to the click time and `killed_by` to the clicking user, and
pops `reminded`, `carded`, `card_channel_id`, `card_msg_id`.
(`ensure_boss` has already been called on the boss, and `save_records`
follows; no other key is touched.) -/
def btn_kill (now : Nat) (actor : String) (r : Rec) : Rec :=
  { r with last_kill := some now, killed_by := some actor,
           reminded := false, carded := false,
           card_channel_id := none, card_msg_id := none }

/-- The `/clear` bulk reset `BossCog.clear_`: for every record, `last_kill`
is set to `None` and the `reminded`, `carded`, `card_channel_id`,
`card_msg_id` keys are popped; nothing else changes. -/
def clear_all (st : Store) : Store :=
  st.map (fun p =>
    (p.1, { p.2 with last_kill := none, reminded := false, carded := false,
                     card_channel_id := none, card_msg_id := none }))

/-- Oracle environment for one reconciliation pass: whether the channel
lookup finds a channel, whether each of the two sends succeeds (a `false`
send is a `channel.send` that raises), and the message/channel ids the
card send returns on success. -/
structure CheckEnv where
  channel_ok : Int → Bool
  rem_ok : String → Bool
  card_ok : String → Bool
  card_ids : String → Int × Int

/-- Events observable from one pass: a reminder send attempt (with its
outcome), a card send attempt (with the view's disabled flag and the
outcome), and a `save_records()` call. -/
inductive Event where
  | reminder (boss : String) (delivered : Bool)
  | card (boss : String) (disabled : Bool) (delivered : Bool)
  | saved
deriving DecidableEq

/-- Truthiness of `rec.get("period")`: absent or zero. -/
def falsy_period : Option Int → Bool
  | none => true
  | some p => p = 0

/-- Truthiness of `rec.get("channel")`: absent or zero. -/
def falsy_chan : Option Int → Bool
  | none => true
  | some c => c = 0

/-- The `disable_view` computation in `check_task`: true exactly when the
`manual_set_at` key holds a truthy (non-empty) string, `fromisoformat`
parses it, and `now` is at most `ANTI_DUP_GRACE_SEC` past it. -/
def disable_view_of (r : Rec) (now : Nat) : Bool :=
  match r.manual_set_at with
  | none => false
  | some s =>
    if s = [] then false
    else
      match iso_to_dt s with
      | none => false
      | some t => decide ((now : Int) - t ≤ ANTI_DUP_GRACE_SEC)

/-- The early-reminder block of `check_task` for one record: when the flag
is unset and `remind_time <= now < respawn`, the flag is set, then the send
is attempted; `save_records` runs only if the send did not raise. -/
def reminder_step (env : CheckEnv) (now : Nat) (name : String)
    (respawn remind_time : Int) (r : Rec) : Rec × List Event :=
  if r.reminded = false ∧ remind_time ≤ (now : Int) ∧ (now : Int) < respawn then
    let r1 := { r with reminded := true }
    if env.rem_ok name then (r1, [Event.reminder name true, Event.saved])
    else (r1, [Event.reminder name false])
  else (r, [])

/-- The card block of `check_task` for one record: when the flag is unset
and `now >= respawn`, the flag is set, the disabled state is computed, then
the send is attempted; the card reference is recorded and `save_records`
runs only if the send did not raise. -/
def card_step (env : CheckEnv) (now : Nat) (name : String)
    (respawn : Int) (r : Rec) : Rec × List Event :=
  if r.carded = false ∧ (now : Int) ≥ respawn then
    let rc := { r with carded := true }
    let dv := disable_view_of r now
    if env.card_ok name then
      ({ rc with card_channel_id := some (env.card_ids name).1,
                 card_msg_id := some (env.card_ids name).2 },
       [Event.card name dv true, Event.saved])
    else (rc, [Event.card name dv false])
  else (r, [])

/-- One iteration of the `check_task` loop body for the record of one boss:
skip when `last_kill` or `period` is falsy, compute the respawn and
reminder times, skip when the channel key is falsy or the lookup finds no
channel, then run the reminder block and the card block in order. -/
def checkStep (env : CheckEnv) (now : Nat) (name : String) (r : Rec) :
    Rec × List Event :=
  match r.last_kill with
  | none => (r, [])
  | some kill =>
    if falsy_period r.period then (r, [])
    else
      let period := safe_period r.period
      let respawn : Int := (kill : Int) + period * 60
      let remind_time : Int := respawn - EARLY_MINUTES * 60
      if falsy_chan r.channel then (r, [])
      else if env.channel_ok (r.channel.getD 0) = false then (r, [])
      else
        let s1 := reminder_step env now name respawn remind_time r
        let s2 := card_step env now name respawn s1.1
        (s2.1, s1.2 ++ s2.2)

/-- One full `check_task` pass over the snapshot `list(records.items())`:
each entry is processed with `checkStep`; the resulting store and the
concatenated event log are returned. -/
def checkPass (env : CheckEnv) (now : Nat) : Store → Store × List Event
  | [] => ([], [])
  | (name, r) :: rest =>
    let s := checkStep env now name r
    let srest := checkPass env now rest
    ((name, s.1) :: srest.1, s.2 ++ srest.2)

/-- One line of the `/all` listing: the tuple appended to `items` in
`BossCog.all_list_`. -/
structure ListItem where
  boss : String
  period : Int
  last : Nat
  respawn : Int
  sym : Phase
  miss_times : Option Int
  left_sec : Int
deriving DecidableEq

/-- The effective display limit `max(1, min(int(limit or 10), 40))`:
an omitted limit and a zero limit are both falsy and become 10. -/
def eff_limit (limit : Option Int) : Int :=
  max 1 (min (match limit with
              | none => 10
              | some 0 => 10
              | some l => l) 40)

/-- The `items` list built by `/all`: records with a set `last_kill`, each
classified at `now`, with the remaining seconds clamped at zero. -/
def all_items (now : Nat) (st : Store) : List ListItem :=
  st.filterMap (fun p =>
    match p.2.last_kill with
    | none => none
    | some last =>
      let period := safe_period p.2.period
      let s := status_of period (some last) now
      match s.respawn with
      | none => none
      | some respawn =>
        some { boss := p.1, period := period, last := last, respawn := respawn,
               sym := s.sym, miss_times := s.miss_times,
               left_sec := max 0 (respawn - (now : Int)) })

/-- Stable insertion into a list sorted by ascending `left_sec`; an element
is placed after every element with an equal or smaller key, matching the
stability of Python's `list.sort`. -/
def insert_by_left : ListItem → List ListItem → List ListItem
  | a, [] => [a]
  | a, b :: bs => if a.left_sec < b.left_sec then a :: b :: bs
                  else b :: insert_by_left a bs

/-- Stable ascending sort by `left_sec`: `items.sort(key=lambda x: x[6])`. -/
def sort_by_left (l : List ListItem) : List ListItem :=
  l.foldl (fun acc a => insert_by_left a acc) []

/-- The list of entries `/all` actually displays: the sorted items, cut off
once `shown >= limit`. -/
def all_list (limit : Option Int) (now : Nat) (st : Store) : List ListItem :=
  (sort_by_left (all_items now st)).take (eff_limit limit).toNat

/-- Concrete corrupt persisted record: its `last_kill` text contains a
non-digit entry, so `fromisoformat` rejects it. -/
def badPRec : PRec := { period := some 180, last_kill := some [12], channel := some 7 }

/-- Concrete store with one fully populated record, for the bulk-clear
witness. -/
def stClear : Store :=
  [("02", { period := some 120, last_kill := some 50, channel := some 4,
            reminded := true, carded := true, card_channel_id := some 4,
            card_msg_id := some 9 })]

/-- Concrete record with `manual_set_at` set, for the card-button
counterexample. -/
def recManualSet : Rec :=
  { period := some 60, last_kill := some 100,
    manual_set_at := some (dt_to_iso 100) }

/-- Oracle environment whose sends always fail (every `channel.send`
raises) while the channel lookup succeeds. -/
def envFail : CheckEnv :=
  { channel_ok := fun _ => true, rem_ok := fun _ => false,
    card_ok := fun _ => false, card_ids := fun _ => (0, 0) }

/-- Oracle environment whose lookup and sends all succeed. -/
def envOK : CheckEnv :=
  { channel_ok := fun _ => true, rem_ok := fun _ => true,
    card_ok := fun _ => true, card_ids := fun _ => (9, 10) }

/-- Concrete record due for its early reminder at `now = 3500`
(respawn 3600, reminder window opens at 3420). -/
def recDue : Rec := { period := some 60, last_kill := some 0, channel := some 5 }

/-- Concrete record past its predicted time 7200 with a manual correction
recorded at 7200 (`manual_set_at` holds the digit-list encoding of 7200),
for the anti-duplicate suppression witness. -/
def recManualGrace : Rec :=
  { period := some 120, last_kill := some 0, channel := some 3,
    manual_set_at := some [0, 0, 2, 7] }

/-- Concrete store with two overdue records, for the `/all` theorems. -/
def stTwo : Store :=
  [("A", { period := some 60, last_kill := some 0, channel := some 1 }),
   ("B", { period := some 60, last_kill := some 0, channel := some 1 })]

/-- The encode/decode pair round-trips every timestamp, mirroring
`datetime.fromisoformat(dt.isoformat()) == dt`. -/
theorem iso_roundtrip (t : Nat) : iso_to_dt (dt_to_iso t) = some t := by
  by_cases h : t = 0
  · subst h
    simp [dt_to_iso, iso_to_dt, Nat.ofDigits]
  · have hnil : Nat.digits 10 t ≠ [] := Nat.digits_ne_nil_iff_ne_zero.mpr h
    have hall : ∀ d ∈ Nat.digits 10 t, d < 10 := fun d hd =>
      Nat.digits_lt_base (by norm_num) hd
    simp only [dt_to_iso, if_neg h, iso_to_dt]
    rw [if_pos]
    · rw [Nat.ofDigits_digits]
    · refine ⟨hnil, ?_⟩
      rw [List.all_eq_true]
      intro d hd
      exact decide_eq_true (hall d hd)

/-- Parsing the empty digit list (the empty string) fails, as
`datetime.fromisoformat("")` raises. -/
theorem iso_to_dt_nil : iso_to_dt [] = none := by
  simp [iso_to_dt]

/-- Helper: with a positive period and `now` at or past the predicted time,
`status_of` takes the overdue branch: the missed-cycle count is the floor
division of the overrun (measured from the predicted time) by the period,
and the symbol is MISSED exactly when at least one full period has been
consumed. -/
theorem status_of_overdue (p : Int) (t now : Nat) (hp : 0 < p)
    (h : (t : Int) + p * 60 ≤ (now : Int)) :
    (status_of p (some t) now).miss_times
        = some (((now : Int) - ((t : Int) + p * 60)) / (p * 60))
    ∧ ((status_of p (some t) now).sym
        = if 1 ≤ ((now : Int) - ((t : Int) + p * 60)) / (p * 60)
          then Phase.MISSED else Phase.SPAWNED)
    ∧ (status_of p (some t) now).respawn = some ((t : Int) + p * 60) := by
  have hb : (0 : Int) ≤ p * 60 := by positivity
  have hneg : -((t : Int) + p * 60 - (now : Int))
      = (now : Int) - ((t : Int) + p * 60) := by ring
  simp only [status_of, ge_iff_le]
  rw [if_pos (by omega : (t : Int) + p * 60 - (now : Int) ≤ 0)]
  rw [Int.fdiv_eq_ediv _ hb, hneg]
  by_cases hm : 1 ≤ ((now : Int) - ((t : Int) + p * 60)) / (p * 60)
  · rw [if_pos hm, if_pos hm]
    exact ⟨rfl, rfl, rfl⟩
  · rw [if_neg hm, if_neg hm]
    have hq0 : (0 : Int) ≤ ((now : Int) - ((t : Int) + p * 60)) / (p * 60) :=
      Int.ediv_nonneg (by omega) hb
    refine ⟨?_, rfl, rfl⟩
    have hq1 : ((now : Int) - ((t : Int) + p * 60)) / (p * 60) ≤ 0 :=
      Int.lt_add_one_iff.mp (by simpa using lt_of_not_le hm)
    have hqz : ((now : Int) - ((t : Int) + p * 60)) / (p * 60) = 0 :=
      le_antisymm hq1 hq0
    rw [hqz]

/-- Helper: strictly before the predicted time and within the early-warning
window, `status_of` reports SOON. -/
theorem status_of_soon (p : Int) (t now : Nat)
    (h1 : 0 < (t : Int) + p * 60 - (now : Int))
    (h2 : (t : Int) + p * 60 - (now : Int) ≤ EARLY_MINUTES * 60) :
    (status_of p (some t) now).sym = Phase.SOON := by
  simp only [status_of, ge_iff_le]
  rw [if_neg (by omega : ¬ ((t : Int) + p * 60 - (now : Int) ≤ 0)), if_pos h2]

/-- Helper: strictly before the early-warning window opens, `status_of`
reports WAIT. -/
theorem status_of_wait (p : Int) (t now : Nat)
    (h2 : EARLY_MINUTES * 60 < (t : Int) + p * 60 - (now : Int)) :
    (status_of p (some t) now).sym = Phase.WAIT := by
  have hE : EARLY_MINUTES * 60 = 180 := rfl
  rw [hE] at h2
  simp only [status_of, ge_iff_le]
  rw [if_neg (by omega : ¬ ((t : Int) + p * 60 - (now : Int) ≤ 0)),
      if_neg (by rw [hE]; omega : ¬ ((t : Int) + p * 60 - (now : Int) ≤ EARLY_MINUTES * 60))]

/-- Helper: one-le of an integer floor quotient with positive divisor. -/
theorem one_le_ediv_iff (a b : Int) (hb : 0 < b) : 1 ≤ a / b ↔ b ≤ a := by
  rw [Int.le_ediv_iff_mul_le hb, one_mul]

/-- C1 counterexample: the claim says `status_of` at `now = t` (the
occurrence time itself) returns SPAWNED; at period 120 and `t = now = 0`
the code returns WAIT, since the full period still remains. -/
theorem C1_counterexample : (status_of 120 (some 0) 0).sym = Phase.WAIT := by
  have h := status_of_wait 120 0 0 (by decide)
  simpa using h

/-- C1 (amended): for every period `p > 0` (minutes) and occurrence time
`t`, `status_of` at `now = t + 60p` (the predicted time) returns SPAWNED;
at `now = t + 60p - 1` it returns WAIT or SOON depending on the
early-warning window; and for every `now >= t + 60p` it returns SPAWNED
exactly when the overrun is under one period and MISSED exactly when the
overrun is at least one period, so SPAWNED and MISSED partition the
post-recurrence axis with no gap or overlap. -/
theorem C1_status_partition (p t : Nat) (hp : 0 < p) :
    (status_of (p : Int) (some t) (t + 60 * p)).sym = Phase.SPAWNED
    ∧ ((status_of (p : Int) (some t) (t + 60 * p - 1)).sym = Phase.WAIT
       ∨ (status_of (p : Int) (some t) (t + 60 * p - 1)).sym = Phase.SOON)
    ∧ ∀ now : Nat, t + 60 * p ≤ now →
        ((status_of (p : Int) (some t) now).sym = Phase.SPAWNED
          ↔ now - (t + 60 * p) < 60 * p)
        ∧ ((status_of (p : Int) (some t) now).sym = Phase.MISSED
          ↔ 60 * p ≤ now - (t + 60 * p)) := by
  have hp' : (0 : Int) < (p : Int) := by exact_mod_cast hp
  have hpos : (0 : Int) < (p : Int) * 60 := by positivity
  refine ⟨?_, ?_, ?_⟩
  · have h := status_of_overdue (p : Int) t (t + 60 * p) hp' (by push_cast; omega)
    have hz : ((t + 60 * p : Nat) : Int) - ((t : Int) + (p : Int) * 60) = 0 := by
      push_cast; ring
    rw [h.2.1, hz]
    rw [if_neg (by simp)]
  · right
    exact status_of_soon (p : Int) t (t + 60 * p - 1)
      (by push_cast [Nat.cast_sub (by omega : 1 ≤ t + 60 * p)]; omega)
      (by
        push_cast [Nat.cast_sub (by omega : 1 ≤ t + 60 * p)]
        simp only [EARLY_MINUTES]
        omega)
  · intro now hnow
    have h := status_of_overdue (p : Int) t now hp' (by omega)
    have hdiv : (1 : Int) ≤ ((now : Int) - ((t : Int) + (p : Int) * 60)) / ((p : Int) * 60)
        ↔ (p : Int) * 60 ≤ (now : Int) - ((t : Int) + (p : Int) * 60) :=
      one_le_ediv_iff _ _ hpos
    constructor
    · rw [h.2.1]
      by_cases hm : (1 : Int) ≤ ((now : Int) - ((t : Int) + (p : Int) * 60)) / ((p : Int) * 60)
      · rw [if_pos hm]
        have hge := hdiv.mp hm
        constructor
        · intro habs; exact absurd habs (by simp)
        · intro hlt; exfalso; omega
      · rw [if_neg hm]
        have hlt : ¬ ((p : Int) * 60 ≤ (now : Int) - ((t : Int) + (p : Int) * 60)) :=
          fun hc => hm (hdiv.mpr hc)
        constructor
        · intro _; omega
        · intro _; rfl
    · rw [h.2.1]
      by_cases hm : (1 : Int) ≤ ((now : Int) - ((t : Int) + (p : Int) * 60)) / ((p : Int) * 60)
      · rw [if_pos hm]
        have hge := hdiv.mp hm
        constructor
        · intro _; omega
        · intro _; rfl
      · rw [if_neg hm]
        have hlt : ¬ ((p : Int) * 60 ≤ (now : Int) - ((t : Int) + (p : Int) * 60)) :=
          fun hc => hm (hdiv.mpr hc)
        constructor
        · intro habs; exact absurd habs (by simp)
        · intro hc; exfalso; omega

/-- C1 witness: the amended statement at period 1 minute, occurrence time 0:
SPAWNED at the predicted time 60, and at `now = 119` (overrun 59 < 60) the
partition reports SPAWNED. -/
theorem C1_status_partition_witness :
    (status_of (1 : Int) (some 0) (0 + 60 * 1)).sym = Phase.SPAWNED
    ∧ ((status_of (1 : Int) (some 0) 119).sym = Phase.SPAWNED ↔ 119 - (0 + 60 * 1) < 60 * 1) := by
  have h := C1_status_partition 1 0 (by decide)
  exact ⟨h.1, (h.2.2 119 (by decide)).1⟩

/-- C4: for every record with `last_kill` set and `now` at or past the
predicted time `t + 60p`, the classifier returns
`overrun_cycles = floor(overrun_seconds / period_seconds)` with the overrun
measured from the predicted time, and reports MISSED once the overrun
reaches one full period. -/
theorem C4_overrun_cycles (p t now : Nat) (hp : 0 < p) (h : t + 60 * p ≤ now) :
    (status_of (p : Int) (some t) now).miss_times
        = some (((now - (t + 60 * p)) / (60 * p) : Nat) : Int)
    ∧ (60 * p ≤ now - (t + 60 * p) →
        (status_of (p : Int) (some t) now).sym = Phase.MISSED) := by
  have hp' : (0 : Int) < (p : Int) := by exact_mod_cast hp
  have hpos : (0 : Int) < (p : Int) * 60 := by positivity
  have hov := status_of_overdue (p : Int) t now hp' (by omega)
  constructor
  · rw [hov.1]
    congr 1
    have hcast : ((now : Int) - ((t : Int) + (p : Int) * 60))
        = ((now - (t + 60 * p) : Nat) : Int) := by
      push_cast [Nat.cast_sub h]; ring
    have hcast2 : ((p : Int) * 60) = ((60 * p : Nat) : Int) := by push_cast; ring
    rw [hcast, hcast2, ← Int.ofNat_ediv]
  · intro hmiss
    rw [hov.2.1]
    rw [if_pos ((one_le_ediv_iff _ _ hpos).mpr (by omega))]

/-- C4 witness: the spec scenario — period 120 minutes, last occurrence
365 minutes before `now` (t = 0, now = 21900 s): predicted time 7200 s,
overrun 14700 s, `overrun_cycles = floor(14700/7200) = 2`, phase MISSED. -/
theorem C4_overrun_cycles_witness :
    (status_of ((120 : Nat) : Int) (some 0) 21900).miss_times = some 2
    ∧ (status_of ((120 : Nat) : Int) (some 0) 21900).sym = Phase.MISSED := by
  have h := C4_overrun_cycles 120 0 21900 (by decide) (by decide)
  refine ⟨?_, h.2 (by decide)⟩
  rw [h.1]
  decide

/-- Helper: loading a saved record restores it field for field. -/
theorem load_save_rec (r : Rec) : loadRec (saveRec r) = r := by
  cases hl : r.last_kill with
  | none =>
    cases r
    simp_all [loadRec, saveRec]
  | some t =>
    cases r
    simp_all [loadRec, saveRec, iso_roundtrip]

/-- C6: `save()` followed by `load()` reproduces every field of every
record exactly; the timestamp fields go through the
`isoformat`/`fromisoformat` round-trip, which is exact (hence reproduced to
at least second precision). -/
theorem C6_save_load_roundtrip (st : Store) :
    load_records (save_records st) = st := by
  induction st with
  | nil => rfl
  | cons hd tl ih =>
    simp only [save_records, load_records, List.map_cons] at ih ⊢
    rw [load_save_rec]
    rw [ih]

/-- C7: a persisted entry whose `last_kill` string does not parse loads
with that field unset, all its other fields intact, and the surrounding
entries load exactly as they would alone; the loader is total (the parse
failure is caught per entry, never raised). -/
theorem C7_corrupt_entry (pre post : PStore) (name : String) (p : PRec)
    (s : List Nat) (hs : p.last_kill = some s) (hbad : iso_to_dt s = none) :
    load_records (pre ++ (name, p) :: post)
        = load_records pre ++ (name, loadRec p) :: load_records post
    ∧ (loadRec p).last_kill = none
    ∧ (loadRec p).period = p.period
    ∧ (loadRec p).user = p.user
    ∧ (loadRec p).killed_by = p.killed_by
    ∧ (loadRec p).channel = p.channel
    ∧ (loadRec p).reminded = p.reminded
    ∧ (loadRec p).carded = p.carded
    ∧ (loadRec p).card_channel_id = p.card_channel_id
    ∧ (loadRec p).card_msg_id = p.card_msg_id
    ∧ (loadRec p).manual_set_at = p.manual_set_at := by
  refine ⟨?_, ?_, rfl, rfl, rfl, rfl, rfl, rfl, rfl, rfl, rfl⟩
  · unfold load_records
    rw [List.map_append, List.map_cons]
  · simp [loadRec, hs, hbad]

/-- C7 witness: the corrupt record loads with `last_kill` unset, the period
intact, and loading does not disturb the store around it. -/
theorem C7_corrupt_entry_witness :
    load_records ([] ++ ("X", badPRec) :: [])
        = load_records [] ++ ("X", loadRec badPRec) :: load_records []
    ∧ (loadRec badPRec).last_kill = none
    ∧ (loadRec badPRec).period = some 180 := by
  have h := C7_corrupt_entry [] [] "X" badPRec [12] rfl (by decide)
  exact ⟨h.1, h.2.1, h.2.2.1⟩

/-- Helper: a lookup that misses the first part of an append continues in
the second part. -/
theorem lookup_append_of_none {β : Type} (l l2 : List (String × β)) (a : String)
    (h : l.lookup a = none) : (l ++ l2).lookup a = l2.lookup a := by
  induction l with
  | nil => rfl
  | cons hd tl ih =>
    obtain ⟨k, v⟩ := hd
    simp only [List.lookup, List.cons_append] at h ⊢
    cases hak : (a == k) with
    | true => simp [hak] at h
    | false =>
      simp only [hak] at h ⊢
      exact ih h

/-- Helper: appending a binding for `b` makes a lookup of `b` succeed when
the prefix does not bind it. -/
theorem lookup_append_single {β : Type} (l : List (String × β)) (b : String)
    (r : β) (h : l.lookup b = none) :
    ((l ++ [(b, r)]).lookup b).isSome = true := by
  rw [lookup_append_of_none _ _ _ h]
  simp [List.lookup]

/-- Helper: after `ensure_boss` runs, the trimmed name is bound in the
store. -/
theorem ensure_boss_mem (boss : String) (h1 : Option Int) (st : Store) :
    (((ensure_boss boss h1 st).2).lookup boss.trim).isSome = true := by
  unfold ensure_boss
  by_cases hmem : (st.lookup boss.trim).isSome
  · rw [if_pos hmem]
    exact hmem
  · have hnone : st.lookup boss.trim = none := Option.not_isSome_iff_eq_none.mp hmem
    rw [if_neg hmem]
    exact lookup_append_single st boss.trim _ hnone

/-- Helper: when the trimmed name is already bound, `ensure_boss` is the
identity on the store. -/
theorem ensure_boss_of_mem (boss : String) (h2 : Option Int) (st : Store)
    (h : (st.lookup boss.trim).isSome) : ensure_boss boss h2 st = (boss.trim, st) := by
  unfold ensure_boss
  rw [if_pos h]

/-- Helper: `ensure_boss` always returns the trimmed name as the key. -/
theorem ensure_boss_fst (boss : String) (h1 : Option Int) (st : Store) :
    (ensure_boss boss h1 st).1 = boss.trim := by
  unfold ensure_boss
  by_cases hmem : (st.lookup boss.trim).isSome
  · rw [if_pos hmem]
  · rw [if_neg hmem]

/-- C8: `ensure_boss` is idempotent: a second call with the same name (and
any period hint) returns the same key and leaves the store — hence every
field of the record — unchanged. -/
theorem C8_ensure_boss_idem (boss : String) (h1 h2 : Option Int) (st : Store) :
    ensure_boss boss h2 (ensure_boss boss h1 st).2 = ensure_boss boss h1 st := by
  rw [ensure_boss_of_mem boss h2 _ (ensure_boss_mem boss h1 st)]
  rw [← ensure_boss_fst boss h1 st]

/-- C9: after the `/clear` bulk reset, every record has `last_kill` unset
and both notification guard flags unset, while the name-to-period mapping
is unchanged. -/
theorem C9_clear_all (st : Store) :
    (∀ q ∈ clear_all st,
        q.2.last_kill = none ∧ q.2.reminded = false ∧ q.2.carded = false)
    ∧ (clear_all st).map (fun q => (q.1, q.2.period))
        = st.map (fun q => (q.1, q.2.period)) := by
  constructor
  · intro q hq
    obtain ⟨p, _, rfl⟩ := List.mem_map.mp hq
    exact ⟨rfl, rfl, rfl⟩
  · unfold clear_all
    rw [List.map_map]
    rfl

/-- C9 witness: the cleared form of the populated record has `last_kill`
and both flags unset, and the period map is untouched. -/
theorem C9_clear_all_witness :
    (("02", ({ period := some 120, channel := some 4 } : Rec)).2.last_kill = none
     ∧ (("02", ({ period := some 120, channel := some 4 } : Rec)).2.reminded = false)
     ∧ (("02", ({ period := some 120, channel := some 4 } : Rec)).2.carded = false))
    ∧ (clear_all stClear).map (fun q => (q.1, q.2.period))
        = stClear.map (fun q => (q.1, q.2.period)) :=
  ⟨(C9_clear_all stClear).1 _ (by decide), (C9_clear_all stClear).2⟩

/-- C5 counterexample: a record whose `manual_set_at` is set keeps it set
across the card button mutation — the claim that the affordance clears
`manual_set_at` is false (and indeed the manual-correction commands set it
rather than clear it). -/
theorem C5_counterexample :
    (btn_kill 200 "alice" recManualSet).manual_set_at = some (dt_to_iso 100) := rfl

/-- C5 (amended): the card button mutation sets `last_kill` to the
invocation time, records the actor in `killed_by`, clears both guard flags
and the active card reference, and leaves `manual_set_at` (as well as
`period`, `channel` and `user`) untouched. -/
theorem C5_btn_kill_mutation (now : Nat) (actor : String) (r : Rec) :
    (btn_kill now actor r).last_kill = some now
    ∧ (btn_kill now actor r).reminded = false
    ∧ (btn_kill now actor r).carded = false
    ∧ (btn_kill now actor r).card_channel_id = none
    ∧ (btn_kill now actor r).card_msg_id = none
    ∧ (btn_kill now actor r).killed_by = some actor
    ∧ (btn_kill now actor r).manual_set_at = r.manual_set_at
    ∧ (btn_kill now actor r).period = r.period
    ∧ (btn_kill now actor r).channel = r.channel
    ∧ (btn_kill now actor r).user = r.user :=
  ⟨rfl, rfl, rfl, rfl, rfl, rfl, rfl, rfl, rfl, rfl⟩

/-- Helper: the reminder block only ever touches the `reminded` flag. -/
theorem reminder_step_frame (env : CheckEnv) (now : Nat) (name : String)
    (respawn remind_time : Int) (r : Rec) :
    ((reminder_step env now name respawn remind_time r).1).carded = r.carded
    ∧ ((reminder_step env now name respawn remind_time r).1).manual_set_at
        = r.manual_set_at
    ∧ ((reminder_step env now name respawn remind_time r).1).card_channel_id
        = r.card_channel_id
    ∧ ((reminder_step env now name respawn remind_time r).1).card_msg_id
        = r.card_msg_id := by
  unfold reminder_step
  split_ifs <;> exact ⟨rfl, rfl, rfl, rfl⟩

/-- Helper: the reminder block never emits a card event. -/
theorem card_not_mem_reminder_step (env : CheckEnv) (now : Nat) (name : String)
    (respawn remind_time : Int) (r : Rec) (n : String) (d ok : Bool) :
    Event.card n d ok ∉ (reminder_step env now name respawn remind_time r).2 := by
  unfold reminder_step
  split_ifs <;> simp

/-- Helper: any card event the card block emits carries exactly the
`disable_view` value computed from the record it was given. -/
theorem card_step_card_mem (env : CheckEnv) (now : Nat) (name : String)
    (respawn : Int) (r : Rec) (n : String) (d ok : Bool)
    (h : Event.card n d ok ∈ (card_step env now name respawn r).2) :
    d = disable_view_of r now := by
  unfold card_step at h
  split_ifs at h <;> simp_all

/-- Helper: `disable_view` reads only the `manual_set_at` field. -/
theorem disable_view_congr (r1 r2 : Rec) (now : Nat)
    (h : r1.manual_set_at = r2.manual_set_at) :
    disable_view_of r1 now = disable_view_of r2 now := by
  unfold disable_view_of
  rw [h]

/-- Helper: any card event of one loop iteration carries the
`disable_view` value computed from the iteration's record. -/
theorem checkStep_card_disabled (env : CheckEnv) (now : Nat) (name : String)
    (r : Rec) (n : String) (d ok : Bool)
    (h : Event.card n d ok ∈ (checkStep env now name r).2) :
    d = disable_view_of r now := by
  unfold checkStep at h
  cases hl : r.last_kill with
  | none => rw [hl] at h; simp at h
  | some kill =>
    rw [hl] at h
    simp only at h
    split_ifs at h
    · simp at h
    · simp at h
    · simp at h
    · rw [List.mem_append] at h
      rcases h with h | h
      · exact absurd h (card_not_mem_reminder_step _ _ _ _ _ _ _ _ _)
      · rw [card_step_card_mem _ _ _ _ _ _ _ _ h]
        exact disable_view_congr _ _ _ (reminder_step_frame _ _ _ _ _ _).2.1

/-- Helper: the `disable_view` flag is true exactly when `manual_set_at`
holds a parseable timestamp at most the grace window before `now`. -/
theorem disable_view_iff (r : Rec) (now : Nat) :
    disable_view_of r now = true
      ↔ ∃ s t, r.manual_set_at = some s ∧ iso_to_dt s = some t
          ∧ (now : Int) - t ≤ ANTI_DUP_GRACE_SEC := by
  cases hms : r.manual_set_at with
  | none => simp [disable_view_of, hms]
  | some s =>
    by_cases hnil : s = []
    · subst hnil
      simp [disable_view_of, hms, iso_to_dt_nil]
    · cases hparse : iso_to_dt s with
      | none => simp [disable_view_of, hms, hnil, hparse]
      | some t0 => simp [disable_view_of, hms, hnil, hparse]

/-- C3: whenever the reconciliation pass emits a recurrence card for an
entity, the card's confirm button is created pre-disabled if and only if
the record's `manual_set_at` is set, parses as a timestamp, and `now` is at
most `ANTI_DUP_GRACE_SEC` (180 s) past it; otherwise it is created
active. -/
theorem C3_card_disabled_iff (env : CheckEnv) (now : Nat) (name : String)
    (r : Rec) (n : String) (d ok : Bool)
    (h : Event.card n d ok ∈ (checkStep env now name r).2) :
    d = true ↔ ∃ s t, r.manual_set_at = some s ∧ iso_to_dt s = some t
        ∧ (now : Int) - t ≤ ANTI_DUP_GRACE_SEC := by
  rw [checkStep_card_disabled env now name r n d ok h]
  exact disable_view_iff r now

/-- C3 witness: a record manually corrected at 7200 and due at 7200,
checked at 7250 (50 s, inside the 180 s grace window): the emitted card is
pre-disabled. -/
theorem C3_card_disabled_iff_witness :
    ∃ s t, recManualGrace.manual_set_at = some s ∧ iso_to_dt s = some t
        ∧ ((7250 : Nat) : Int) - t ≤ ANTI_DUP_GRACE_SEC :=
  (C3_card_disabled_iff envOK 7250 "05" recManualGrace "05" true true
    (by decide)).mp rfl

/-- Helper: the card block never emits a reminder event. -/
theorem reminder_not_mem_card_step (env : CheckEnv) (now : Nat) (name : String)
    (respawn : Int) (r : Rec) (n : String) (d : Bool) :
    Event.reminder n d ∉ (card_step env now name respawn r).2 := by
  unfold card_step
  split_ifs <;> simp

/-- C2 counterexample: with every send failing, a pass over two entities
both due for their early reminder still sets both `reminded` flags — the
claim that a failed delivery leaves the guard flag unset (so the
notification is retried next wake-up) is false: the flag is set before the
send and stays set. -/
theorem C2_counterexample :
    (checkPass envFail 3500 [("A", recDue), ("B", recDue)]).1
      = [("A", { recDue with reminded := true }),
         ("B", { recDue with reminded := true })] := by decide

/-- C2 (amended): a send failure for one entity never aborts the pass —
each entity of the snapshot is processed independently and in order; but on
a failed send the guard flag has already been set and remains set (only the
`save_records` persistence is skipped), so the notification is not retried
while the process lives: a record whose flag is set emits no further
reminder. -/
theorem C2_failure_isolation :
    (∀ env now name r rest,
        checkPass env now ((name, r) :: rest)
          = ((name, (checkStep env now name r).1) :: (checkPass env now rest).1,
             (checkStep env now name r).2 ++ (checkPass env now rest).2))
    ∧ (∀ env (now : Nat) name (r : Rec) (kill : Nat),
        r.last_kill = some kill →
        falsy_period r.period = false →
        falsy_chan r.channel = false →
        env.channel_ok (r.channel.getD 0) = true →
        r.reminded = false →
        (kill : Int) + safe_period r.period * 60 - EARLY_MINUTES * 60 ≤ (now : Int) →
        (now : Int) < (kill : Int) + safe_period r.period * 60 →
        env.rem_ok name = false →
        (checkStep env now name r).1.reminded = true
          ∧ (checkStep env now name r).2 = [Event.reminder name false])
    ∧ (∀ env (now : Nat) name (r : Rec) (kill : Nat),
        r.last_kill = some kill →
        falsy_period r.period = false →
        falsy_chan r.channel = false →
        env.channel_ok (r.channel.getD 0) = true →
        r.carded = false →
        (kill : Int) + safe_period r.period * 60 ≤ (now : Int) →
        env.card_ok name = false →
        (checkStep env now name r).1.carded = true
          ∧ (checkStep env now name r).1.card_channel_id = r.card_channel_id
          ∧ (checkStep env now name r).1.card_msg_id = r.card_msg_id)
    ∧ (∀ env (now : Nat) name (r : Rec), r.reminded = true →
        ∀ d, Event.reminder name d ∉ (checkStep env now name r).2) := by
  refine ⟨?_, ?_, ?_, ?_⟩
  · intro env now name r rest
    rfl
  · intro env now name r kill hl hper hchan hok hrem hwin1 hwin2 hsend
    unfold checkStep
    rw [hl]
    simp only [hper, Bool.false_eq_true, if_false, hchan,
               if_neg (by simp [hok] : ¬ (env.channel_ok (r.channel.getD 0) = false))]
    rw [show reminder_step env now name ((kill : Int) + safe_period r.period * 60)
          ((kill : Int) + safe_period r.period * 60 - EARLY_MINUTES * 60) r
        = ({ r with reminded := true }, [Event.reminder name false]) from by
      unfold reminder_step
      rw [if_pos ⟨hrem, hwin1, hwin2⟩, if_neg (by rw [hsend]; simp)]]
    rw [show card_step env now name ((kill : Int) + safe_period r.period * 60)
          ({ r with reminded := true })
        = ({ r with reminded := true }, []) from by
      unfold card_step
      rw [if_neg (by intro hc; exact absurd hc.2 (by omega))]]
    exact ⟨rfl, rfl⟩
  · intro env now name r kill hl hper hchan hok hcard hwin hsend
    unfold checkStep
    rw [hl]
    simp only [hper, Bool.false_eq_true, if_false, hchan,
               if_neg (by simp [hok] : ¬ (env.channel_ok (r.channel.getD 0) = false))]
    have hframe := reminder_step_frame env now name
      ((kill : Int) + safe_period r.period * 60)
      ((kill : Int) + safe_period r.period * 60 - EARLY_MINUTES * 60) r
    rw [show card_step env now name ((kill : Int) + safe_period r.period * 60)
          (reminder_step env now name ((kill : Int) + safe_period r.period * 60)
            ((kill : Int) + safe_period r.period * 60 - EARLY_MINUTES * 60) r).1
        = ({ (reminder_step env now name ((kill : Int) + safe_period r.period * 60)
              ((kill : Int) + safe_period r.period * 60 - EARLY_MINUTES * 60) r).1
             with carded := true }, [Event.card name
               (disable_view_of (reminder_step env now name
                 ((kill : Int) + safe_period r.period * 60)
                 ((kill : Int) + safe_period r.period * 60 - EARLY_MINUTES * 60) r).1 now)
               false]) from by
      unfold card_step
      rw [if_pos ⟨by rw [hframe.1, hcard], by exact hwin⟩,
          if_neg (by rw [hsend]; simp)]]
    refine ⟨rfl, ?_, ?_⟩
    · exact hframe.2.2.1
    · exact hframe.2.2.2
  · intro env now name r hrem d
    unfold checkStep
    cases hl : r.last_kill with
    | none => simp
    | some kill =>
      simp only
      split_ifs
      · simp
      · simp
      · simp
      · rw [List.mem_append]
        rintro (h | h)
        · unfold reminder_step at h
          rw [if_neg (by rw [hrem]; simp)] at h
          simp at h
        · exact reminder_not_mem_card_step _ _ _ _ _ _ _ h

/-- C2 witness: the amended flag behaviour at the concrete failing pass —
the reminder send fails, yet the flag is set and exactly one (failed)
reminder attempt is logged. -/
theorem C2_failure_isolation_witness :
    (checkStep envFail 3500 "A" recDue).1.reminded = true
      ∧ (checkStep envFail 3500 "A" recDue).2 = [Event.reminder "A" false] :=
  C2_failure_isolation.2.1 envFail 3500 "A" recDue 0 rfl (by decide) (by decide)
    rfl rfl (by decide) (by decide) rfl

/-- Helper: inserting keeps exactly the old elements plus the new one. -/
theorem mem_insert_by_left (x a : ListItem) (l : List ListItem) :
    x ∈ insert_by_left a l ↔ x = a ∨ x ∈ l := by
  induction l with
  | nil => simp [insert_by_left]
  | cons b bs ih =>
    unfold insert_by_left
    split_ifs
    · simp [List.mem_cons]
    · simp only [List.mem_cons, ih]
      tauto

/-- Helper: inserting into a list sorted by ascending `left_sec` keeps it
sorted. -/
theorem pairwise_insert_by_left (a : ListItem) (l : List ListItem)
    (hl : l.Pairwise (fun x y => x.left_sec ≤ y.left_sec)) :
    (insert_by_left a l).Pairwise (fun x y => x.left_sec ≤ y.left_sec) := by
  induction l with
  | nil => simp [insert_by_left]
  | cons b bs ih =>
    rw [List.pairwise_cons] at hl
    obtain ⟨hb, hbs⟩ := hl
    unfold insert_by_left
    split_ifs with h
    · rw [List.pairwise_cons]
      refine ⟨?_, List.pairwise_cons.mpr ⟨hb, hbs⟩⟩
      intro y hy
      rcases List.mem_cons.mp hy with rfl | hy'
      · exact le_of_lt h
      · exact le_trans (le_of_lt h) (hb y hy')
    · rw [List.pairwise_cons]
      refine ⟨?_, ih hbs⟩
      intro y hy
      rcases (mem_insert_by_left y a bs).mp hy with rfl | hy'
      · exact not_lt.mp h
      · exact hb y hy'

/-- Helper: the insertion fold yields a sorted list from any sorted
accumulator. -/
theorem sort_by_left_go_sorted (l acc : List ListItem)
    (h : acc.Pairwise (fun x y => x.left_sec ≤ y.left_sec)) :
    (l.foldl (fun acc a => insert_by_left a acc) acc).Pairwise
      (fun x y => x.left_sec ≤ y.left_sec) := by
  induction l generalizing acc with
  | nil => exact h
  | cons a as ih => exact ih _ (pairwise_insert_by_left a acc h)

/-- Helper: the `/all` sort is sorted by ascending remaining seconds. -/
theorem sort_by_left_sorted (l : List ListItem) :
    (sort_by_left l).Pairwise (fun x y => x.left_sec ≤ y.left_sec) :=
  sort_by_left_go_sorted l [] List.Pairwise.nil

/-- Helper: the insertion fold preserves membership. -/
theorem mem_sort_by_left_go (x : ListItem) (l acc : List ListItem) :
    x ∈ l.foldl (fun acc a => insert_by_left a acc) acc ↔ x ∈ acc ∨ x ∈ l := by
  induction l generalizing acc with
  | nil => simp
  | cons a as ih =>
    simp only [List.foldl_cons, ih, mem_insert_by_left, List.mem_cons]
    tauto

/-- Helper: the `/all` sort is a reordering: same members. -/
theorem mem_sort_by_left (x : ListItem) (l : List ListItem) :
    x ∈ sort_by_left l ↔ x ∈ l := by
  unfold sort_by_left
  rw [mem_sort_by_left_go]
  simp

/-- Helper: inverting membership in the `/all` item list: every item comes
from a record with a set `last_kill`, carries that record's classification,
and its remaining seconds are clamped at zero. -/
theorem mem_all_items (now : Nat) (st : Store) (it : ListItem)
    (h : it ∈ all_items now st) :
    ∃ r : Rec, (it.boss, r) ∈ st ∧ r.last_kill = some it.last
      ∧ it.left_sec = max 0 (it.respawn - (now : Int))
      ∧ (status_of (safe_period r.period) (some it.last) now).respawn = some it.respawn
      ∧ (status_of (safe_period r.period) (some it.last) now).sym = it.sym := by
  unfold all_items at h
  rw [List.mem_filterMap] at h
  obtain ⟨p, hp, hfp⟩ := h
  cases hlk : p.2.last_kill with
  | none => rw [hlk] at hfp; simp at hfp
  | some last =>
    rw [hlk] at hfp
    simp only at hfp
    cases hrs : (status_of (safe_period p.2.period) (some last) now).respawn with
    | none => rw [hrs] at hfp; simp at hfp
    | some rsp =>
      rw [hrs] at hfp
      simp only [Option.some.injEq] at hfp
      subst hfp
      exact ⟨p.2, hp, hlk, rfl, hrs, rfl⟩

/-- Helper: when the classifier reports SPAWNED or MISSED, the predicted
time it returns is not in the future. -/
theorem status_of_respawn_le (period : Int) (last now : Nat) (rsp : Int)
    (hrs : (status_of period (some last) now).respawn = some rsp)
    (hsym : (status_of period (some last) now).sym = Phase.SPAWNED
          ∨ (status_of period (some last) now).sym = Phase.MISSED) :
    rsp ≤ (now : Int) := by
  simp only [status_of, ge_iff_le] at hrs hsym
  by_cases h0 : (last : Int) + period * 60 - (now : Int) ≤ 0
  · rw [if_pos h0] at hrs hsym
    split_ifs at hrs hsym <;>
      (simp only [Option.some.injEq] at hrs; omega)
  · rw [if_neg h0] at hrs hsym
    split_ifs at hrs hsym
    · rcases hsym with h | h <;> simp at h
    · rcases hsym with h | h <;> simp at h

/-- C10 (amended): `/all` displays at most `max(1, min(limit, 40))`
entries, where an omitted **or zero** limit counts as 10 (Python's
`limit or 10` treats 0 as falsy); it considers only records with a set
`last_kill`; it lists entries in ascending order of remaining seconds until
the predicted time; and already-spawned or missed entries are clamped to 0
remaining, hence sort first. -/
theorem C10_all_list (limit : Option Int) (now : Nat) (st : Store) :
    (all_list limit now st).length ≤ (eff_limit limit).toNat
    ∧ (∀ it ∈ all_list limit now st,
        ∃ r : Rec, (it.boss, r) ∈ st ∧ r.last_kill = some it.last)
    ∧ (all_list limit now st).Pairwise (fun a b => a.left_sec ≤ b.left_sec)
    ∧ (∀ it ∈ all_list limit now st,
        it.left_sec = max 0 (it.respawn - (now : Int))
        ∧ ((it.sym = Phase.SPAWNED ∨ it.sym = Phase.MISSED) → it.left_sec = 0)) := by
  have hmem : ∀ it ∈ all_list limit now st, it ∈ all_items now st := by
    intro it h
    have h1 : it ∈ sort_by_left (all_items now st) := List.mem_of_mem_take h
    exact (mem_sort_by_left it _).mp h1
  refine ⟨?_, ?_, ?_, ?_⟩
  · exact List.length_take_le _ _
  · intro it h
    obtain ⟨r, hr, hlk, _, _, _⟩ := mem_all_items now st it (hmem it h)
    exact ⟨r, hr, hlk⟩
  · exact List.Pairwise.sublist (List.take_sublist _ _) (sort_by_left_sorted _)
  · intro it h
    obtain ⟨r, hr, hlk, hleft, hrs, hsym⟩ := mem_all_items now st it (hmem it h)
    refine ⟨hleft, ?_⟩
    intro hsp
    have hle := status_of_respawn_le (safe_period r.period) it.last now it.respawn
      hrs (by rw [hsym]; exact hsp)
    rw [hleft]
    exact max_eq_left (by omega)

/-- C10 counterexample: at `limit = 0` the claim's bound
`max(1, min(limit, 40)) = 1`, but the code treats a zero limit as falsy and
shows up to 10 entries: a store of two due records displays both. -/
theorem C10_counterexample :
    (all_list (some 0) 10000 stTwo).length = 2
    ∧ max (1 : Int) (min 0 40) = 1 := by
  constructor
  · decide
  · decide

/-- C10 witness: the amended bound and the set-`last_kill` source at a
concrete limit 5 over the two-record store. -/
theorem C10_all_list_witness :
    (all_list (some 5) 10000 stTwo).length ≤ (eff_limit (some 5)).toNat
    ∧ ∃ r : Rec,
        ((⟨"A", 60, 0, 3600, Phase.MISSED, some 1, 0⟩ : ListItem).boss, r) ∈ stTwo
        ∧ r.last_kill
            = some (⟨"A", 60, 0, 3600, Phase.MISSED, some 1, 0⟩ : ListItem).last :=
  ⟨(C10_all_list (some 5) 10000 stTwo).1,
   (C10_all_list (some 5) 10000 stTwo).2.1 _ (by decide)⟩
